import Mathlib

/-!
Verification of the go-rate-limiter repository's rate-limiting core.

Shallow embedding conventions:
* Instants and durations are rationals.  For the fixed-window path the Go
  code works in `time.Time` / `time.Duration` (integer nanoseconds); for the
  token-bucket path it works in float64 seconds.  Both are embedded as exact
  rational arithmetic, the claims being stated in real arithmetic as well.
* `float64` values (`tokens`, `rate`, elapsed seconds) are embedded as `ℚ`.
* Go's two-value returns `(v, err)` are embedded as `v × Option RLError`;
  a `nil` error is `none`.
* Go maps are embedded as functions `String → Option entry`; a map write is
  a pointwise update.
* `context.Context` is embedded as a record carrying a cancellation flag;
  the in-memory store receives it and (like the Go code) never reads it.
-/

namespace RateLimiter

/-- Errors that can cross the `Store` interface.  `errorExceeded` embeds the
package-level sentinel `ErrorExceeded = errors.New("rate limit exceeded")`;
`storeFailure` stands for any other non-nil Go error (transport failures and
the like), carrying its message. -/
inductive RLError where
  | errorExceeded
  | storeFailure (msg : String)
deriving DecidableEq

/-- Embedding of `context.Context` as far as the store code can observe it:
a cancellation flag.  The in-memory store never consults it. -/
structure GoContext where
  cancelled : Bool
deriving DecidableEq

/-- Embedding of the `Result` struct from `limiter.go`.  `ResetAfter` is a
duration in seconds (the Go code stores integer nanoseconds; the claims are
about its exact value, embedded as `ℚ`). -/
structure Result where
  Allowed : Bool
  Limit : Int
  Remaining : Int
  ResetAfter : ℚ
deriving DecidableEq

/-- Embedding of `fixedWindowEntry` from `store/memory.go`: the counter value
and its expiration instant. -/
structure fixedWindowEntry where
  count : Int
  expiresAt : ℚ
deriving DecidableEq

/-- Embedding of `tokenBucketEntry` from `store/memory.go`: the fractional
token count and the instant it was last recomputed. -/
structure tokenBucketEntry where
  tokens : ℚ
  lastUpdated : ℚ
deriving DecidableEq

/-- Embedding of `MemoryStore`: the two maps guarded by the mutex.  The mutex
itself is not modelled; every primitive is a single atomic step here, which is
exactly what the mutex guarantees for the Go code. -/
structure MemoryStore where
  fixedWindowEntries : String → Option fixedWindowEntry
  tokenBucketEntries : String → Option tokenBucketEntry

/-- A `MemoryStore` with both maps empty, as built by `NewMemory`. -/
def emptyMemoryStore : MemoryStore :=
  { fixedWindowEntries := fun _ => none, tokenBucketEntries := fun _ => none }

/-- Embedding of `MemoryStore.Increment` (store/memory.go lines 47-68).
An existing entry whose `expiresAt` is strictly in the past
(`time.Now().After(e.expiresAt)`) is treated as absent; a fresh entry gets
`count = 1` and `expiresAt = now + window`; otherwise the count is bumped and
`expiresAt` kept.  Returns the updated store, the post-increment count, and
the (always nil) error.  The two `time.Now()` calls in the Go body are the
same instant `now` here. -/
def MemoryStore.Increment (s : MemoryStore) (ctx : GoContext) (key : String)
    (window : ℚ) (now : ℚ) : MemoryStore × Int × Option RLError :=
  let live : Option fixedWindowEntry :=
    match s.fixedWindowEntries key with
    | some e => if e.expiresAt < now then none else some e
    | none => none
  let e : fixedWindowEntry :=
    match live with
    | none => { count := 1, expiresAt := now + window }
    | some e0 => { count := e0.count + 1, expiresAt := e0.expiresAt }
  ({ fixedWindowEntries := fun k => if k = key then some e else s.fixedWindowEntries k,
     tokenBucketEntries := s.tokenBucketEntries },
   e.count, none)

/-- Embedding of `MemoryStore.TakeToken` (store/memory.go lines 72-113).
Missing entry: create it with `tokens = burst - 1`, return `(true, burst-1)`.
Existing entry: add `elapsed * rate` when `elapsed > 0`, clamp to `burst`,
then either consume a token (when `tokens ≥ 1`) or leave the (refilled)
count, updating `lastUpdated` to `now` in both branches. -/
def MemoryStore.TakeToken (s : MemoryStore) (ctx : GoContext) (key : String)
    (rate : ℚ) (burst : Int) (now : ℚ) : MemoryStore × (Bool × ℚ) × Option RLError :=
  match s.tokenBucketEntries key with
  | none =>
    let remaining : ℚ := (burst : ℚ) - 1
    let entry : tokenBucketEntry := { tokens := remaining, lastUpdated := now }
    ({ fixedWindowEntries := s.fixedWindowEntries,
       tokenBucketEntries := fun k => if k = key then some entry else s.tokenBucketEntries k },
     (true, remaining), none)
  | some entry =>
    let elapsed : ℚ := now - entry.lastUpdated
    let tokens0 : ℚ := if 0 < elapsed then entry.tokens + elapsed * rate else entry.tokens
    let tokens1 : ℚ := if (burst : ℚ) < tokens0 then (burst : ℚ) else tokens0
    if 1 ≤ tokens1 then
      let entry2 : tokenBucketEntry := { tokens := tokens1 - 1, lastUpdated := now }
      ({ fixedWindowEntries := s.fixedWindowEntries,
         tokenBucketEntries := fun k => if k = key then some entry2 else s.tokenBucketEntries k },
       (true, tokens1 - 1), none)
    else
      let entry2 : tokenBucketEntry := { tokens := tokens1, lastUpdated := now }
      ({ fixedWindowEntries := s.fixedWindowEntries,
         tokenBucketEntries := fun k => if k = key then some entry2 else s.tokenBucketEntries k },
       (false, tokens1), none)

/-- Embedding of Go's `Time.Truncate`: for `d ≤ 0` the instant is returned
unchanged; otherwise it is rounded down to a multiple of `d` since the zero
instant. -/
def timeTruncate (t d : ℚ) : ℚ :=
  if d ≤ 0 then t else d * (⌊t / d⌋ : ℤ)

/-- Embedding of `FixedWindowLimiter`: the configured limit and window.  (The
`store` field is passed explicitly to `Allow` instead of being stored.) -/
structure FixedWindowLimiter where
  limit : Int
  window : ℚ
deriving DecidableEq

/-- Embedding of `TokenBucketLimiter`: the refill rate (tokens per second)
and the burst capacity. -/
structure TokenBucketLimiter where
  rate : ℚ
  burst : Int
deriving DecidableEq

/-- Post-processing of `FixedWindowLimiter.Allow` given the store's
`Increment` reply (fixed_window.go lines 68-89).  On a store error the Go
code returns `Result{Allowed: false}` — all other fields are Go zero values.
Otherwise `allowed = count ≤ limit`,
`remaining = int64(math.Max(0, float64(limit-count)))` (exact integer
arithmetic here), and `resetAfter = now.Truncate(window).Add(window) - now`
via `time.Until`. -/
def FixedWindowLimiter.allowWith (l : FixedWindowLimiter)
    (storeReply : Except RLError Int) (now : ℚ) : Result × Option RLError :=
  match storeReply with
  | .error err =>
    ({ Allowed := false, Limit := 0, Remaining := 0, ResetAfter := 0 }, some err)
  | .ok currentCount =>
    let allowed : Bool := decide (currentCount ≤ l.limit)
    let remaining : Int := max 0 (l.limit - currentCount)
    let endOfWindow : ℚ := timeTruncate now l.window + l.window
    let resetAfter : ℚ := endOfWindow - now
    ({ Allowed := allowed, Limit := l.limit, Remaining := remaining,
       ResetAfter := resetAfter }, none)

/-- `FixedWindowLimiter.Allow` against the in-memory store: call `Increment`,
then post-process its reply. -/
def FixedWindowLimiter.Allow (l : FixedWindowLimiter) (s : MemoryStore)
    (ctx : GoContext) (key : String) (now : ℚ) :
    MemoryStore × Result × Option RLError :=
  let r := s.Increment ctx key l.window now
  match r.2.2 with
  | some err => (r.1, l.allowWith (.error err) now)
  | none => (r.1, l.allowWith (.ok r.2.1) now)

/-- Post-processing of `TokenBucketLimiter.Allow` given the store's
`TakeToken` reply (token_bucket.go lines 31-58).  On a store error the Go
code returns `Result{Allowed: false}` with zero-valued fields.  Otherwise
`remaining` is floored and clamped at 0, and `resetAfter` is 0 when allowed,
else `(1 - tokens) / rate` seconds. -/
def TokenBucketLimiter.allowWith (l : TokenBucketLimiter)
    (storeReply : Except RLError (Bool × ℚ)) : Result × Option RLError :=
  match storeReply with
  | .error err =>
    ({ Allowed := false, Limit := 0, Remaining := 0, ResetAfter := 0 }, some err)
  | .ok (allowed, remaining) =>
    let remainingInt : Int := if ⌊remaining⌋ < 0 then 0 else ⌊remaining⌋
    let resetAfter : ℚ := if allowed then 0 else (1 - remaining) / l.rate
    ({ Allowed := allowed, Limit := l.burst, Remaining := remainingInt,
       ResetAfter := resetAfter }, none)

/-- `TokenBucketLimiter.Allow` against the in-memory store: call `TakeToken`,
then post-process its reply. -/
def TokenBucketLimiter.Allow (l : TokenBucketLimiter) (s : MemoryStore)
    (ctx : GoContext) (key : String) (now : ℚ) :
    MemoryStore × Result × Option RLError :=
  let r := s.TakeToken ctx key l.rate l.burst now
  match r.2.2 with
  | some err => (r.1, l.allowWith (.error err))
  | none => (r.1, l.allowWith (.ok r.2.1))

/-- Redis reply values as seen by the Go client after `Script.Run(...).Result()`:
the Lua script returns either an integer, a bulk string, or an array of
replies.  This is the dynamic type the Go code type-asserts against. -/
inductive RedisValue where
  | int (n : Int)
  | str (s : String)
  | arr (elems : List RedisValue)

/-- The `(bool, float64, error)` triple returned by `RedisStore.TakeToken`. -/
structure TakeTokenReply where
  allowed : Bool
  tokens : ℚ
  err : Option RLError
deriving DecidableEq

/-- Outcome of the Go reply-parsing code.  `panicked` models the unchecked
type assertion `arr[0].(int64)`, which panics when the first array element is
not an integer. -/
inductive TakeTokenOutcome where
  | ret (r : TakeTokenReply)
  | panicked
deriving DecidableEq

/-- Digits-only decimal reading used by `goParseFloat`; `none` on any
non-digit character. -/
def decDigits (cs : List Char) : Option Nat :=
  if cs.isEmpty then none
  else
    cs.foldl
      (fun acc c => acc.bind fun n => if c.isDigit then some (10 * n + (c.toNat - 48)) else none)
      (some 0)

/-- Modelled from the spec: `strconv.ParseFloat(s, 64)` restricted to the
plain decimal notation that Lua's `tostring` emits for the script's token
count.  The Go call site discards the parse error, so a malformed string
yields the float64 zero value, embedded as 0. -/
def goParseFloat (s : String) : ℚ :=
  let sign : ℚ := if s.startsWith "-" then -1 else 1
  let body : String :=
    if s.startsWith "-" then s.drop 1 else if s.startsWith "+" then s.drop 1 else s
  match body.splitOn "." with
  | [ipart] =>
    match decDigits ipart.toList with
    | some n => sign * (n : ℚ)
    | none => 0
  | [ipart, fpart] =>
    match decDigits ipart.toList, decDigits fpart.toList with
    | some n, some f => sign * ((n : ℚ) + (f : ℚ) / (10 : ℚ) ^ fpart.length)
    | _, _ => 0
  | _ => 0

/-- Embedding of the reply-parsing tail of `RedisStore.TakeToken`
(store/redis.go lines 103-113), after the script ran without a transport
error.  `arr, ok := res.([]interface{}); if !ok || len(arr) < 2` returns
`(false, 0, ratelimiter.ErrorExceeded)`; otherwise `arr[0].(int64) == 1`
decides `allowed` (panicking when `arr[0]` is not an integer), and `arr[1]`
is read as a string (zero value `""` when it is not) and parsed as a float
with the error discarded. -/
def RedisStore.parseTakeTokenReply (res : RedisValue) : TakeTokenOutcome :=
  match res with
  | .arr (e0 :: e1 :: _) =>
    match e0 with
    | .int n =>
      let remainingTokensStr : String := match e1 with | .str s => s | _ => ""
      .ret { allowed := n == 1, tokens := goParseFloat remainingTokensStr, err := none }
    | _ => .panicked
  | _ => .ret { allowed := false, tokens := 0, err := some .errorExceeded }

/-- Transcription of claim C5's wording for the refinement check, to be
compared with `MemoryStore.Increment`: a missing or expired entry is replaced
by a fresh one with `count = 1` and `expiresAt = now + window`; a live entry
has its count bumped with `expiresAt` left unchanged.  Returns the stored
entry and the returned count. -/
def specIncrement (e : Option fixedWindowEntry) (window now : ℚ) :
    fixedWindowEntry × Int :=
  match e with
  | none => ({ count := 1, expiresAt := now + window }, 1)
  | some e0 =>
    if e0.expiresAt < now then ({ count := 1, expiresAt := now + window }, 1)
    else ({ count := e0.count + 1, expiresAt := e0.expiresAt }, e0.count + 1)

/-- Transcription of claim C3's wording for the refinement check, to be
compared with `MemoryStore.TakeToken`: on first touch the entry starts at
`burst - 1`; otherwise tokens are refilled to
`min(burst, tokens + (now - lastUpdated) * rate)` and one token is consumed
when at least one is present.  Returns the stored entry and the returned
`(allowed, tokens)` pair. -/
def specTakeToken (e : Option tokenBucketEntry) (rate : ℚ) (burst : Int)
    (now : ℚ) : tokenBucketEntry × Bool × ℚ :=
  match e with
  | none => ({ tokens := (burst : ℚ) - 1, lastUpdated := now }, true, (burst : ℚ) - 1)
  | some e0 =>
    let tokens : ℚ := min (burst : ℚ) (e0.tokens + (now - e0.lastUpdated) * rate)
    if 1 ≤ tokens then ({ tokens := tokens - 1, lastUpdated := now }, true, tokens - 1)
    else ({ tokens := tokens, lastUpdated := now }, false, tokens)

/-- Clamping to an upper bound, as the Go code writes it, is `min`. -/
theorem clamp_eq_min (b x : ℚ) : (if b < x then b else x) = min b x := by
  rcases lt_or_le b x with h | h
  · rw [if_pos h, min_eq_left h.le]
  · rw [if_neg (not_lt.mpr h), min_eq_right h]

/-- Flooring then clamping below at zero, as the Go code writes it, is
`max 0` of the floor. -/
theorem floorClamp_eq_max (x : Int) : (if x < 0 then (0 : Int) else x) = max 0 x := by
  rcases lt_or_le x 0 with h | h
  · rw [if_pos h, max_eq_left h.le]
  · rw [if_neg (not_lt.mpr h), max_eq_right h]

/-- Claim C2: for every `FixedWindowLimiter.Allow` call in which the store's
`Increment` returns a count `c` with a nil error, the returned `Result` has
`Allowed = (c ≤ limit)`, `Remaining = max 0 (limit - c)`, `Limit` the
configured limit, and `ResetAfter = truncate(now, window) + window - now`,
the time remaining until the window boundary aligned to the window grid. -/
theorem fixedWindow_allow_fields (l : FixedWindowLimiter) (c : Int) (now : ℚ)
    (hw : 0 < l.window) :
    l.allowWith (.ok c) now =
      ({ Allowed := decide (c ≤ l.limit), Limit := l.limit,
         Remaining := max 0 (l.limit - c),
         ResetAfter := l.window * (⌊now / l.window⌋ : ℤ) + l.window - now }, none) := by
  simp [FixedWindowLimiter.allowWith, timeTruncate, hw.not_le]

/-- Witness for `fixedWindow_allow_fields` at `limit = 3`, `window = 60`,
count 1, `now = 10`. -/
theorem fixedWindow_allow_fields_witness :
    (0 : ℚ) < 60 ∧
    FixedWindowLimiter.allowWith { limit := 3, window := 60 } (.ok 1) 10 =
      ({ Allowed := decide ((1 : Int) ≤ 3), Limit := 3, Remaining := max 0 (3 - 1),
         ResetAfter := (60 : ℚ) * (⌊(10 : ℚ) / 60⌋ : ℤ) + 60 - 10 }, none) :=
  ⟨by norm_num, fixedWindow_allow_fields { limit := 3, window := 60 } 1 10 (by norm_num)⟩

/-- Claim C4: for every `TokenBucketLimiter.Allow` call in which the store's
`TakeToken` returns `(allowed, tokens)` with a nil error, the returned
`Result` has `Limit = burst`, `Remaining = max 0 ⌊tokens⌋`, `ResetAfter = 0`
when allowed, and `ResetAfter = (1 - tokens) / rate` seconds otherwise. -/
theorem tokenBucket_allow_fields (l : TokenBucketLimiter) (allowed : Bool) (tokens : ℚ) :
    l.allowWith (.ok (allowed, tokens)) =
      ({ Allowed := allowed, Limit := l.burst, Remaining := max 0 ⌊tokens⌋,
         ResetAfter := if allowed then 0 else (1 - tokens) / l.rate }, none) := by
  simp [TokenBucketLimiter.allowWith, floorClamp_eq_max]

/-- Claim C8: for every `Allow` call on either limiter in which the store
primitive returns a non-nil error, the limiter returns that error together
with a `Result` whose `Allowed` is false and whose `Limit`, `Remaining` and
`ResetAfter` are all zero. -/
theorem allow_store_error_zeroed_result (lf : FixedWindowLimiter)
    (lt : TokenBucketLimiter) (e : RLError) (now : ℚ) :
    lf.allowWith (.error e) now =
        ({ Allowed := false, Limit := 0, Remaining := 0, ResetAfter := 0 }, some e) ∧
      lt.allowWith (.error e) =
        ({ Allowed := false, Limit := 0, Remaining := 0, ResetAfter := 0 }, some e) :=
  ⟨rfl, rfl⟩

/-- Claim C10: for every key, window, rate, burst and context (including a
cancelled one), the in-memory store's `Increment` and `TakeToken` return a
nil error, and their entire outcome is independent of the context. -/
theorem memory_store_never_errors_ignores_context (s : MemoryStore)
    (c c2 : GoContext) (key : String) (window rate : ℚ) (burst : Int) (now : ℚ) :
    (s.Increment c key window now).2.2 = none ∧
      (s.TakeToken c key rate burst now).2.2 = none ∧
      s.Increment c key window now = s.Increment c2 key window now ∧
      s.TakeToken c key rate burst now = s.TakeToken c2 key rate burst now := by
  refine ⟨rfl, ?_, rfl, rfl⟩
  cases h : s.tokenBucketEntries key with
  | none => simp [MemoryStore.TakeToken, h]
  | some entry =>
    simp only [MemoryStore.TakeToken, h]
    split_ifs <;> rfl

/-- Claim C5: `MemoryStore.Increment` stores and returns exactly what the
spec's description prescribes — a fresh `count = 1`, `expiresAt = now +
window` entry when no live entry exists (missing, or `expiresAt` in the
past), and otherwise the incremented count with `expiresAt` left unchanged —
and its error is nil. -/
theorem memory_increment_matches_spec (s : MemoryStore) (ctx : GoContext)
    (key : String) (window now : ℚ) :
    (s.Increment ctx key window now).1.fixedWindowEntries key
        = some (specIncrement (s.fixedWindowEntries key) window now).1 ∧
      (s.Increment ctx key window now).2.1
        = (specIncrement (s.fixedWindowEntries key) window now).2 ∧
      (s.Increment ctx key window now).2.2 = none := by
  cases h : s.fixedWindowEntries key with
  | none => simp [MemoryStore.Increment, specIncrement, h]
  | some e =>
    simp only [MemoryStore.Increment, specIncrement, h]
    split_ifs <;> simp

/-- Claim C3: when the clock has not run backwards since the entry was last
touched, `MemoryStore.TakeToken` stores and returns exactly what the spec's
description prescribes: creation at `burst - 1`, else refill to
`min(burst, tokens + (now - lastUpdated) * rate)` followed by a conditional
decrement. -/
theorem memory_takeToken_matches_spec (s : MemoryStore) (ctx : GoContext)
    (key : String) (rate : ℚ) (burst : Int) (now : ℚ)
    (hmono : ∀ e, s.tokenBucketEntries key = some e → e.lastUpdated ≤ now) :
    (s.TakeToken ctx key rate burst now).1.tokenBucketEntries key
        = some (specTakeToken (s.tokenBucketEntries key) rate burst now).1 ∧
      (s.TakeToken ctx key rate burst now).2.1
        = (specTakeToken (s.tokenBucketEntries key) rate burst now).2 := by
  cases h : s.tokenBucketEntries key with
  | none => simp [MemoryStore.TakeToken, specTakeToken, h]
  | some e =>
    have hle := hmono e h
    have hsel :
        (if 0 < now - e.lastUpdated then e.tokens + (now - e.lastUpdated) * rate
          else e.tokens) = e.tokens + (now - e.lastUpdated) * rate := by
      split_ifs with hpos
      · rfl
      · have h0 : now - e.lastUpdated = 0 := by linarith
        rw [h0]
        ring
    simp only [MemoryStore.TakeToken, specTakeToken, h, hsel, clamp_eq_min]
    split_ifs <;> simp

/-- Witness for `memory_takeToken_matches_spec` at a store holding an entry
with 2 tokens last updated at instant 5, queried at instant 7. -/
theorem memory_takeToken_matches_spec_witness :
    ((MemoryStore.TakeToken
          { fixedWindowEntries := fun _ => none,
            tokenBucketEntries := fun _ => some { tokens := 2, lastUpdated := 5 } }
          { cancelled := false } "k" 1 5 7).1.tokenBucketEntries "k"
        = some (specTakeToken (some { tokens := 2, lastUpdated := 5 }) 1 5 7).1) ∧
      ((MemoryStore.TakeToken
          { fixedWindowEntries := fun _ => none,
            tokenBucketEntries := fun _ => some { tokens := 2, lastUpdated := 5 } }
          { cancelled := false } "k" 1 5 7).2.1
        = (specTakeToken (some { tokens := 2, lastUpdated := 5 }) 1 5 7).2) :=
  memory_takeToken_matches_spec
    { fixedWindowEntries := fun _ => none,
      tokenBucketEntries := fun _ => some { tokens := 2, lastUpdated := 5 } }
    { cancelled := false } "k" 1 5 7
    (fun _ he => by rw [← Option.some.inj he]; norm_num)

/-- Counterexample to claim C1: a fixed-window `Allow` call that is allowed
yet reports a non-zero `ResetAfter` — with `limit = 3`, `window = 60` and an
empty store at instant 10, the first request is allowed and `ResetAfter` is
50, the time to the aligned window boundary. -/
theorem fixedWindow_allowed_with_nonzero_resetAfter :
    ((FixedWindowLimiter.Allow { limit := 3, window := 60 } emptyMemoryStore
          { cancelled := false } "u1" 10).2.1).Allowed = true ∧
      ((FixedWindowLimiter.Allow { limit := 3, window := 60 } emptyMemoryStore
          { cancelled := false } "u1" 10).2.1).ResetAfter ≠ 0 ∧
      (FixedWindowLimiter.Allow { limit := 3, window := 60 } emptyMemoryStore
          { cancelled := false } "u1" 10).2.2 = none := by
  norm_num [FixedWindowLimiter.Allow, MemoryStore.Increment,
    FixedWindowLimiter.allowWith, timeTruncate, emptyMemoryStore]

/-- Claim C1 as amended: for every `TokenBucketLimiter.Allow` call that
returns a nil error, `Allowed = true` implies `ResetAfter = 0`.  (The
fixed-window limiter instead always reports the time to the aligned window
boundary, which is positive, so the implication fails there.) -/
theorem tokenBucket_allowed_implies_resetAfter_zero (l : TokenBucketLimiter)
    (reply : Except RLError (Bool × ℚ))
    (h : ((l.allowWith reply).1).Allowed = true) :
    ((l.allowWith reply).1).ResetAfter = 0 := by
  cases reply with
  | error e => simp [TokenBucketLimiter.allowWith] at h
  | ok p =>
    obtain ⟨allowed, tokens⟩ := p
    cases allowed with
    | false => simp [TokenBucketLimiter.allowWith] at h
    | true => simp [TokenBucketLimiter.allowWith]

/-- Witness for `tokenBucket_allowed_implies_resetAfter_zero` at an allowed
reply carrying 2 remaining tokens. -/
theorem tokenBucket_allowed_implies_resetAfter_zero_witness :
    ((TokenBucketLimiter.allowWith { rate := 1, burst := 5 }
          (.ok (true, 2))).1).Allowed = true ∧
      ((TokenBucketLimiter.allowWith { rate := 1, burst := 5 }
          (.ok (true, 2))).1).ResetAfter = 0 :=
  ⟨rfl, tokenBucket_allowed_implies_resetAfter_zero { rate := 1, burst := 5 }
    (.ok (true, 2)) rfl⟩

/-- Every branch of `MemoryStore.TakeToken` stores an entry for the key whose
tokens equal the returned token count and whose `lastUpdated` is `now`. -/
theorem takeToken_stored (s : MemoryStore) (ctx : GoContext) (key : String)
    (rate : ℚ) (burst : Int) (now : ℚ) :
    (s.TakeToken ctx key rate burst now).1.tokenBucketEntries key
      = some { tokens := ((s.TakeToken ctx key rate burst now).2.1).2,
               lastUpdated := now } := by
  cases h : s.tokenBucketEntries key with
  | none => simp [MemoryStore.TakeToken, h]
  | some e =>
    simp only [MemoryStore.TakeToken, h]
    split_ifs <;> simp

/-- The token count returned by `MemoryStore.TakeToken` never exceeds the
burst capacity: creation starts at `burst - 1` and the refill is clamped. -/
theorem takeToken_returned_le_burst (s : MemoryStore) (ctx : GoContext)
    (key : String) (rate : ℚ) (burst : Int) (now : ℚ) :
    ((s.TakeToken ctx key rate burst now).2.1).2 ≤ (burst : ℚ) := by
  cases h : s.tokenBucketEntries key with
  | none =>
    simp only [MemoryStore.TakeToken, h]
    linarith
  | some e =>
    simp only [MemoryStore.TakeToken, h]
    split_ifs <;> simp_all <;> linarith

/-- With a positive capacity, a nonnegative rate and a nonnegative stored
count, the token count returned by `MemoryStore.TakeToken` is nonnegative. -/
theorem takeToken_returned_nonneg (s : MemoryStore) (ctx : GoContext)
    (key : String) (rate : ℚ) (burst : Int) (now : ℚ)
    (hb : 1 ≤ burst) (hr : 0 ≤ rate)
    (hpre : ∀ e, s.tokenBucketEntries key = some e → 0 ≤ e.tokens) :
    0 ≤ ((s.TakeToken ctx key rate burst now).2.1).2 := by
  have hb' : (1 : ℚ) ≤ (burst : ℚ) := by exact_mod_cast hb
  cases h : s.tokenBucketEntries key with
  | none =>
    simp only [MemoryStore.TakeToken, h]
    linarith
  | some e =>
    have he0 := hpre e h
    simp only [MemoryStore.TakeToken, h]
    split_ifs with hp hc h1 <;> simp_all <;> nlinarith

/-- Counterexample to claim C6: with `burst = 0` the creating call stores a
negative token count — on a fresh key, `TakeToken(k, 1, 0)` stores an entry
with `tokens = -1`, violating `0 ≤ tokens`. -/
theorem takeToken_zero_burst_negative_tokens :
    (MemoryStore.TakeToken emptyMemoryStore { cancelled := false } "k" 1 0 0).1.tokenBucketEntries "k"
        = some { tokens := -1, lastUpdated := 0 } ∧
      ¬ (0 : ℚ) ≤ -1 := by
  constructor
  · norm_num [MemoryStore.TakeToken, emptyMemoryStore]
  · norm_num

/-- Claim C6 as amended: for every `MemoryStore.TakeToken(key, rate, burst)`
call with `burst ≥ 1`, `rate ≥ 0` and a nonnegative stored token count, the
entry stored for the key after the call satisfies `0 ≤ tokens ≤ burst`, and
when the key was untouched the stored tokens equal `burst - 1`. -/
theorem memory_takeToken_tokens_range (s : MemoryStore) (ctx : GoContext)
    (key : String) (rate : ℚ) (burst : Int) (now : ℚ)
    (hb : 1 ≤ burst) (hr : 0 ≤ rate)
    (hpre : ∀ e, s.tokenBucketEntries key = some e → 0 ≤ e.tokens) :
    ∃ e2, (s.TakeToken ctx key rate burst now).1.tokenBucketEntries key = some e2 ∧
      0 ≤ e2.tokens ∧ e2.tokens ≤ (burst : ℚ) ∧
      (s.tokenBucketEntries key = none → e2.tokens = (burst : ℚ) - 1) := by
  refine ⟨_, takeToken_stored s ctx key rate burst now, ?_, ?_, ?_⟩
  · exact takeToken_returned_nonneg s ctx key rate burst now hb hr hpre
  · exact takeToken_returned_le_burst s ctx key rate burst now
  · intro hn
    simp [MemoryStore.TakeToken, hn]

/-- Witness for `memory_takeToken_tokens_range` on a fresh key with
`rate = 1`, `burst = 2` at instant 0. -/
theorem memory_takeToken_tokens_range_witness :
    (1 : Int) ≤ 2 ∧ (0 : ℚ) ≤ 1 ∧
      ∃ e2, (MemoryStore.TakeToken emptyMemoryStore { cancelled := false }
          "k" 1 2 0).1.tokenBucketEntries "k" = some e2 ∧
        0 ≤ e2.tokens ∧ e2.tokens ≤ ((2 : Int) : ℚ) ∧
        (emptyMemoryStore.tokenBucketEntries "k" = none →
          e2.tokens = ((2 : Int) : ℚ) - 1) :=
  ⟨by decide, by norm_num,
    memory_takeToken_tokens_range emptyMemoryStore { cancelled := false }
      "k" 1 2 0 (by decide) (by norm_num) (fun _ he => Option.noConfusion he)⟩

/-- The error component of `MemoryStore.Increment` is always nil. -/
theorem increment_err_none (s : MemoryStore) (ctx : GoContext) (key : String)
    (window now : ℚ) : (s.Increment ctx key window now).2.2 = none := rfl

/-- The error component of `MemoryStore.TakeToken` is always nil. -/
theorem takeToken_err_none (s : MemoryStore) (ctx : GoContext) (key : String)
    (rate : ℚ) (burst : Int) (now : ℚ) :
    (s.TakeToken ctx key rate burst now).2.2 = none := by
  cases h : s.tokenBucketEntries key with
  | none => simp [MemoryStore.TakeToken, h]
  | some e =>
    simp only [MemoryStore.TakeToken, h]
    split_ifs <;> rfl

/-- The count returned by `MemoryStore.Increment` is at least 1 whenever the
stored count (if any) was nonnegative: a fresh entry returns 1 and a live
entry returns its count plus one. -/
theorem increment_returned_pos (s : MemoryStore) (ctx : GoContext)
    (key : String) (window now : ℚ)
    (hcount : ∀ e, s.fixedWindowEntries key = some e → 0 ≤ e.count) :
    1 ≤ (s.Increment ctx key window now).2.1 := by
  cases h : s.fixedWindowEntries key with
  | none => simp [MemoryStore.Increment, h]
  | some e =>
    have := hcount e h
    simp only [MemoryStore.Increment, h]
    split_ifs <;> simp <;> linarith

/-- Counterexample to claim C7: a fixed-window limiter constructed with the
(degenerate) limit -1 returns `Remaining = 0 > Limit = -1` on its first
`Allow` call, so `Remaining ≤ Limit` fails. -/
theorem fixedWindow_negative_limit_remaining_exceeds_limit :
    ¬ (((FixedWindowLimiter.Allow { limit := -1, window := 60 } emptyMemoryStore
          { cancelled := false } "u1" 10).2.1).Remaining
        ≤ ((FixedWindowLimiter.Allow { limit := -1, window := 60 } emptyMemoryStore
          { cancelled := false } "u1" 10).2.1).Limit) ∧
      (FixedWindowLimiter.Allow { limit := -1, window := 60 } emptyMemoryStore
        { cancelled := false } "u1" 10).2.2 = none := by
  norm_num [FixedWindowLimiter.Allow, MemoryStore.Increment,
    FixedWindowLimiter.allowWith, timeTruncate, emptyMemoryStore]

/-- Claim C7 as amended: for every `Allow` call on either limiter against the
in-memory store, provided the configured limit (respectively burst) is
nonnegative — and, for the fixed window, any stored count is nonnegative —
the returned `Result` satisfies `0 ≤ Remaining ≤ Limit`. -/
theorem allow_remaining_between_zero_and_limit (lf : FixedWindowLimiter)
    (lt : TokenBucketLimiter) (s : MemoryStore) (ctx : GoContext)
    (key : String) (now : ℚ) (hlim : 0 ≤ lf.limit) (hburst : 0 ≤ lt.burst)
    (hcount : ∀ e, s.fixedWindowEntries key = some e → 0 ≤ e.count) :
    (0 ≤ ((lf.Allow s ctx key now).2.1).Remaining ∧
        ((lf.Allow s ctx key now).2.1).Remaining ≤ ((lf.Allow s ctx key now).2.1).Limit) ∧
      (0 ≤ ((lt.Allow s ctx key now).2.1).Remaining ∧
        ((lt.Allow s ctx key now).2.1).Remaining ≤ ((lt.Allow s ctx key now).2.1).Limit) := by
  constructor
  · have hc := increment_returned_pos s ctx key lf.window now hcount
    simp only [FixedWindowLimiter.Allow, increment_err_none, FixedWindowLimiter.allowWith]
    constructor
    · exact le_sup_left
    · exact sup_le hlim (by linarith)
  · have hle := takeToken_returned_le_burst s ctx key lt.rate lt.burst now
    have hfloor : ⌊((s.TakeToken ctx key lt.rate lt.burst now).2.1).2⌋ ≤ lt.burst := by
      have := Int.floor_le_floor hle
      rwa [Int.floor_intCast] at this
    simp only [TokenBucketLimiter.Allow, takeToken_err_none, TokenBucketLimiter.allowWith]
    constructor
    · split_ifs with h0
      · exact le_refl 0
      · exact not_lt.mp h0
    · split_ifs with h0
      · exact hburst
      · exact hfloor

/-- Witness for `allow_remaining_between_zero_and_limit`: both limiters on an
empty store at instant 10, with `limit = 3`, `window = 60`, `rate = 1`,
`burst = 5`. -/
theorem allow_remaining_between_zero_and_limit_witness :
    (0 : Int) ≤ 3 ∧ (0 : Int) ≤ 5 ∧
      ((0 ≤ ((FixedWindowLimiter.Allow { limit := 3, window := 60 } emptyMemoryStore
            { cancelled := false } "u1" 10).2.1).Remaining ∧
          ((FixedWindowLimiter.Allow { limit := 3, window := 60 } emptyMemoryStore
            { cancelled := false } "u1" 10).2.1).Remaining
            ≤ ((FixedWindowLimiter.Allow { limit := 3, window := 60 } emptyMemoryStore
            { cancelled := false } "u1" 10).2.1).Limit) ∧
        (0 ≤ ((TokenBucketLimiter.Allow { rate := 1, burst := 5 } emptyMemoryStore
            { cancelled := false } "u1" 10).2.1).Remaining ∧
          ((TokenBucketLimiter.Allow { rate := 1, burst := 5 } emptyMemoryStore
            { cancelled := false } "u1" 10).2.1).Remaining
            ≤ ((TokenBucketLimiter.Allow { rate := 1, burst := 5 } emptyMemoryStore
            { cancelled := false } "u1" 10).2.1).Limit)) :=
  ⟨by decide, by decide,
    allow_remaining_between_zero_and_limit { limit := 3, window := 60 }
      { rate := 1, burst := 5 } emptyMemoryStore { cancelled := false } "u1" 10
      (by decide) (by decide) (fun _ he => Option.noConfusion he)⟩

/-- Claim C9, recorded as a code bug: a `RedisStore.TakeToken` script reply
that is not a two-element array makes the parser return `(false, 0)` together
with the `ErrorExceeded` sentinel itself — not a distinct store error as the
spec requires.  Shown at a non-array reply (the integer 5) and at a
one-element array. -/
theorem redis_takeToken_malformed_reply_returns_exceeded :
    RedisStore.parseTakeTokenReply (.int 5)
        = .ret { allowed := false, tokens := 0, err := some .errorExceeded } ∧
      RedisStore.parseTakeTokenReply (.arr [.int 1])
        = .ret { allowed := false, tokens := 0, err := some .errorExceeded } :=
  ⟨rfl, rfl⟩

end RateLimiter
